import Mathlib

/-!
# bootctl: the command-line wrapper for the boot HAL

A shallow embedding of `bootctl.cpp`, `BootControl.h` and `types.h`.

* A run of the program is a pure function from the argument vector and the
  behaviour of the `BootControl` module to a `Run`: what was written to
  stdout and to stderr, which `BootControl` operations were invoked, and how
  the process ended.
* `BootControl.h` only declares the operations, so the module is a record of
  answers, one per operation; every theorem about the command line holds for
  all such records.
* `uint32_t` values are natural numbers below `2 ^ 32`.
-/

namespace Bootctl

/-! ## Constants of `sysexits.h`, `limits.h` and `errno.h` -/

/-- Successful termination. -/
def EX_OK : Nat := 0

/-- Command line usage error. -/
def EX_USAGE : Nat := 64

/-- Internal software error. -/
def EX_SOFTWARE : Nat := 70

/-- Largest `unsigned int`. -/
def UINT_MAX : Nat := 4294967295

/-- Value `strtoul` stores in `errno` when the number is out of range. -/
def ERANGE : Nat := 34

/-! ## `types.h` -/

/-- Command result: whether the command succeeded, and an error string. -/
structure CommandResult where
  success : Bool
  errMsg : String
  deriving DecidableEq, Repr

/-- Slot number, a `uint32_t`. -/
abbrev Slot := Nat

/-- Result of a query that is true, false, or failed on an invalid slot number. -/
inductive BoolResult where
  | FALSE
  | TRUE
  | INVALID_SLOT
  deriving DecidableEq, Repr

/-- Enumerator values of `BoolResult`, an `int32_t`. -/
def BoolResult.toInt : BoolResult → Int
  | .FALSE => 0
  | .TRUE => 1
  | .INVALID_SLOT => -1

/-! ## The HAL boundary -/

/-- Model of `android::hardware::Return<T>`: the status of the call, its
description, and the value carried when the call is ok. -/
structure Return (α : Type) where
  isOk : Bool
  description : String
  val : α

/-- Successful call carrying `v`. -/
def Return.ok {α : Type} (v : α) : Return α :=
  { isOk := true, description := "", val := v }

/-- Implicit conversion `Return<T>::operator T()`: it asserts that the call
is ok, and the process is aborted when it is not. -/
def Return.get {α : Type} (r : Return α) : Option α :=
  if r.isOk then some r.val else none

/-- Behaviour of the `BootControl` module declared in `BootControl.h`: the
answer of every operation. For an operation that reports through a
`CommandResult` callback the second component is what the caller's
`CommandResult` holds after the call, that is, what the callback stored in
it. For `getSuffix` it is the list of strings the callback was invoked with,
in order. -/
structure BootControl where
  getNumberSlots : Return Nat
  getCurrentSlot : Return Nat
  markBootSuccessful : Return Unit × CommandResult
  setActiveBootSlot : Slot → Return Unit × CommandResult
  setSlotAsUnbootable : Slot → Return Unit × CommandResult
  isSlotBootable : Slot → Return BoolResult
  isSlotMarkedSuccessful : Slot → Return BoolResult
  getSuffix : Slot → Return Unit × List String
  getActiveBootSlot : Return Nat

/-- One invocation of a `BootControl` operation, with its slot argument. -/
inductive Call where
  | getNumberSlots
  | getCurrentSlot
  | markBootSuccessful
  | setActiveBootSlot (slot : Slot)
  | setSlotAsUnbootable (slot : Slot)
  | isSlotBootable (slot : Slot)
  | isSlotMarkedSuccessful (slot : Slot)
  | getSuffix (slot : Slot)
  | getActiveBootSlot
  deriving DecidableEq, Repr

/-- How the process ended: with an exit status, or aborted. -/
inductive Termination where
  | exited (status : Nat)
  | aborted
  deriving DecidableEq, Repr

/-- Observable behaviour of one run of the program. -/
structure Run where
  out : String
  err : String
  calls : List Call
  status : Termination
  deriving DecidableEq, Repr

/-! ## C library: formatted output and `strtoul` -/

/-- Text of `fprintf(_, "%u", v)` for a `uint32_t`. -/
def fmt_u (v : Nat) : String :=
  Nat.repr (v % 2 ^ 32)

/-- Expands the conversion `%s` in the characters of a format. -/
def fmt_s_loop : List Char → List Char → List Char
  | [], _ => []
  | [c], _ => [c]
  | c :: d :: rest, arg =>
    if c = '%' ∧ d = 's' then arg ++ fmt_s_loop rest arg
    else c :: fmt_s_loop (d :: rest) arg

/-- Characters of `s.c_str()` as `%s` prints them: a `std::string` or
`hidl_string` may hold NUL characters, and the C string ends at the first. -/
def c_str (s : String) : String :=
  String.mk (s.data.takeWhile fun c => c.toNat != 0)

/-- Text of `fprintf(_, errStr, arg.c_str())` for a format whose only
conversion is one `%s`. -/
def fmt_s (errStr : String) (arg : String) : String :=
  String.mk (fmt_s_loop errStr.data (c_str arg).data)

/-- Function `isspace` of the C locale. -/
def isspace (c : Char) : Bool :=
  c.toNat = 32 || (9 ≤ c.toNat && c.toNat ≤ 13)

/-- Function `isdigit`. -/
def isdigit (c : Char) : Bool :=
  48 ≤ c.toNat && c.toNat ≤ 57

/-- Sign of the subject sequence of `strtoul`: whether it is negative, and
the text after the sign. -/
def strtoul_sign : List Char → Bool × List Char
  | [] => (false, [])
  | c :: s => if c = '-' then (true, s) else if c = '+' then (false, s) else (false, c :: s)

/-- Digit loop of `strtoul` in base 10 as Android's libc runs it: the
accumulator, whether a digit was consumed, and whether the value went out of
range. The loop ends at the first character that is not a digit, the
terminating NUL included. -/
def strtoul_loop (ulong_max : Nat) : List Char → Nat → Bool → Bool → Nat × Bool × Bool
  | [], acc, any, ovf => (acc, any, ovf)
  | c :: s, acc, any, ovf =>
    if isdigit c then
      if ovf then strtoul_loop ulong_max s acc any ovf
      else if acc > ulong_max / 10 ∨ (acc = ulong_max / 10 ∧ c.toNat - 48 > ulong_max % 10) then
        strtoul_loop ulong_max s ulong_max true true
      else strtoul_loop ulong_max s (acc * 10 + (c.toNat - 48)) true false
    else (acc, any, ovf)

/-- Model of `strtoul(nptr, NULL, 10)` with `errno` cleared before the call,
for an `unsigned long` of `ulong_bits` bits: the value returned and the value
of `errno` afterwards. Leading white space is skipped, one sign is accepted,
the longest run of digits is converted; with no digit at all the result is 0
and `errno` stays 0; out of range gives `ULONG_MAX` and `ERANGE`; a minus
sign negates the value in `unsigned long`. -/
def strtoul (ulong_bits : Nat) (nptr : String) : Nat × Nat :=
  let ulong_max := 2 ^ ulong_bits - 1
  let signed := strtoul_sign (nptr.data.dropWhile isspace)
  let r := strtoul_loop ulong_max signed.2 0 false false
  if r.2.2 then (ulong_max, ERANGE)
  else if signed.1 && r.2.1 then ((2 ^ ulong_bits - r.1) % 2 ^ ulong_bits, 0)
  else (r.1, 0)

/-! ## `bootctl.cpp` -/

/-- Text `usage` prints. `argv[0]` is the program name; with an empty
argument vector it is a null pointer, which Android's libc prints as
`(null)`. -/
def usage (argv : List String) : String :=
  let argv0 := argv.head?.getD "(null)"
  argv0 ++ " - command-line wrapper for the boot HAL.\n"
    ++ "\n"
    ++ "Usage:\n"
    ++ "  " ++ argv0 ++ " COMMAND\n"
    ++ "\n"
    ++ "Commands:\n"
    ++ "  get-number-slots               - Prints number of slots.\n"
    ++ "  get-current-slot               - Prints currently running SLOT.\n"
    ++ "  mark-boot-successful           - Mark current slot as GOOD.\n"
    ++ "  get-active-boot-slot           - Prints the SLOT to load on next boot.\n"
    ++ "  set-active-boot-slot SLOT      - On next boot, load and execute SLOT.\n"
    ++ "  set-slot-as-unbootable SLOT    - Mark SLOT as invalid.\n"
    ++ "  is-slot-bootable SLOT          - Returns 0 only if SLOT is bootable.\n"
    ++ "  is-slot-marked-successful SLOT - Returns 0 only if SLOT is marked GOOD.\n"
    ++ "  get-suffix SLOT                - Prints suffix for SLOT.\n"
    ++ "\n"
    ++ "SLOT parameter is the zero-based slot-number.\n"

/-- Run that does `usage(stderr, ...)` and ends with `EX_USAGE`, having
invoked no operation: the two places of `parse_slot` that call `exit`, and
the two places of `main` that return. -/
def usage_exit (argv : List String) : Run :=
  { out := "", err := usage argv, calls := [], status := .exited EX_USAGE }

/-- Command `get-number-slots`. -/
def do_get_number_slots (module : BootControl) : Run :=
  match module.getNumberSlots.get with
  | none => { out := "", err := "", calls := [.getNumberSlots], status := .aborted }
  | some numSlots =>
    { out := fmt_u numSlots ++ "\n", err := "", calls := [.getNumberSlots],
      status := .exited EX_OK }

/-- Command `get-current-slot`. -/
def do_get_current_slot (module : BootControl) : Run :=
  match module.getCurrentSlot.get with
  | none => { out := "", err := "", calls := [.getCurrentSlot], status := .aborted }
  | some curSlot =>
    { out := fmt_u curSlot ++ "\n", err := "", calls := [.getCurrentSlot],
      status := .exited EX_OK }

/-- Overload `handle_return(const Return<void>&, CommandResult, const char*)`:
the text written to stderr and the exit status. -/
def handle_return (ret : Return Unit) (cr : CommandResult) (errStr : String) : String × Nat :=
  if !ret.isOk then (fmt_s errStr ret.description, EX_SOFTWARE)
  else if !cr.success then (fmt_s errStr cr.errMsg, EX_SOFTWARE)
  else ("", EX_OK)

/-- Command `mark-boot-successful`. -/
def do_mark_boot_successful (module : BootControl) : Run :=
  let r := module.markBootSuccessful
  let h := handle_return r.1 r.2 "Error marking as having booted successfully: %s\n"
  { out := "", err := h.1, calls := [.markBootSuccessful], status := .exited h.2 }

/-- Command `get-active-boot-slot`. -/
def do_get_active_boot_slot (module : BootControl) : Run :=
  match module.getActiveBootSlot.get with
  | none => { out := "", err := "", calls := [.getActiveBootSlot], status := .aborted }
  | some slot =>
    { out := fmt_u slot ++ "\n", err := "", calls := [.getActiveBootSlot],
      status := .exited EX_OK }

/-- Command `set-active-boot-slot SLOT`. -/
def do_set_active_boot_slot (module : BootControl) (slot_number : Slot) : Run :=
  let r := module.setActiveBootSlot slot_number
  let h := handle_return r.1 r.2 "Error setting active boot slot: %s\n"
  { out := "", err := h.1, calls := [.setActiveBootSlot slot_number], status := .exited h.2 }

/-- Command `set-slot-as-unbootable SLOT`. -/
def do_set_slot_as_unbootable (module : BootControl) (slot_number : Slot) : Run :=
  let r := module.setSlotAsUnbootable slot_number
  let h := handle_return r.1 r.2 "Error setting slot as unbootable: %s\n"
  { out := "", err := h.1, calls := [.setSlotAsUnbootable slot_number], status := .exited h.2 }

/-- Overload `handle_return(const Return<BoolResult>&, const char*)`: the
text written to stderr and the exit status. -/
def handle_return_bool (ret : Return BoolResult) (errStr : String) : String × Nat :=
  if !ret.isOk then (fmt_s errStr ret.description, EX_SOFTWARE)
  else if ret.val = BoolResult.INVALID_SLOT then (fmt_s errStr "Invalid slot", EX_SOFTWARE)
  else if ret.val = BoolResult.TRUE then ("", EX_OK)
  else ("", EX_SOFTWARE)

/-- Command `is-slot-bootable SLOT`. -/
def do_is_slot_bootable (module : BootControl) (slot_number : Slot) : Run :=
  let ret := module.isSlotBootable slot_number
  let h := handle_return_bool ret "Error calling isSlotBootable(): %s\n"
  { out := "", err := h.1, calls := [.isSlotBootable slot_number], status := .exited h.2 }

/-- Command `is-slot-marked-successful SLOT`. -/
def do_is_slot_marked_successful (module : BootControl) (slot_number : Slot) : Run :=
  let ret := module.isSlotMarkedSuccessful slot_number
  let h := handle_return_bool ret "Error calling isSlotMarkedSuccessful(): %s\n"
  { out := "", err := h.1, calls := [.isSlotMarkedSuccessful slot_number],
    status := .exited h.2 }

/-- Command `get-suffix SLOT`: the callback prints `suffix.c_str()` of each
suffix it is given, followed by a newline. -/
def do_get_suffix (module : BootControl) (slot_number : Slot) : Run :=
  let r := module.getSuffix slot_number
  let printed := String.join (r.2.map fun suffix => c_str suffix ++ "\n")
  let h := if !r.1.isOk then (fmt_s "Error calling getSuffix(): %s\n" r.1.description, EX_SOFTWARE)
    else ("", EX_OK)
  { out := printed, err := h.1, calls := [.getSuffix slot_number], status := .exited h.2 }

/-- Function `parse_slot`: the slot number, or the run in which the process
exits. `argc` and `pos` are `int`; the result of `strtoul` is stored in a
`uint64_t` and the slot is its cast to `uint32_t`. -/
def parse_slot (ulong_bits : Nat) (pos : Nat) (argv : List String) : Except Run Slot :=
  if (pos : Int) > (argv.length : Int) - 1 then .error (usage_exit argv)
  else
    let r := strtoul ulong_bits (argv.getD pos "")
    let ret := r.1 % 2 ^ 64
    if r.2 ≠ 0 ∨ ret > UINT_MAX then .error (usage_exit argv)
    else .ok (ret % 2 ^ 32)

/-- Runs a command on the slot `parse_slot` gives, unless it exits. -/
def with_slot (parsed : Except Run Slot) (command : Slot → Run) : Run :=
  match parsed with
  | .error exited => exited
  | .ok slot => command slot

/-- Function `main`, for an `unsigned long` of `ulong_bits` bits. -/
def main (ulong_bits : Nat) (module : BootControl) (argv : List String) : Run :=
  if (argv.length : Int) < 2 then usage_exit argv
  else
    let argv1 := argv.getD 1 ""
    if argv1 = "get-number-slots" then do_get_number_slots module
    else if argv1 = "get-current-slot" then do_get_current_slot module
    else if argv1 = "mark-boot-successful" then do_mark_boot_successful module
    else if argv1 = "set-active-boot-slot" then
      with_slot (parse_slot ulong_bits 2 argv) (do_set_active_boot_slot module)
    else if argv1 = "set-slot-as-unbootable" then
      with_slot (parse_slot ulong_bits 2 argv) (do_set_slot_as_unbootable module)
    else if argv1 = "is-slot-bootable" then
      with_slot (parse_slot ulong_bits 2 argv) (do_is_slot_bootable module)
    else if argv1 = "is-slot-marked-successful" then
      with_slot (parse_slot ulong_bits 2 argv) (do_is_slot_marked_successful module)
    else if argv1 = "get-suffix" then
      with_slot (parse_slot ulong_bits 2 argv) (do_get_suffix module)
    else if argv1 = "get-active-boot-slot" then do_get_active_boot_slot module
    else usage_exit argv

/-- The five commands that take a `SLOT`. -/
inductive SlotCommand where
  | set_active_boot_slot
  | set_slot_as_unbootable
  | is_slot_bootable
  | is_slot_marked_successful
  | get_suffix
  deriving DecidableEq, Repr

/-- Command string of a command that takes a `SLOT`. -/
def SlotCommand.name : SlotCommand → String
  | .set_active_boot_slot => "set-active-boot-slot"
  | .set_slot_as_unbootable => "set-slot-as-unbootable"
  | .is_slot_bootable => "is-slot-bootable"
  | .is_slot_marked_successful => "is-slot-marked-successful"
  | .get_suffix => "get-suffix"

/-- Operation of `BootControl` that matches a command that takes a `SLOT`. -/
def SlotCommand.operation : SlotCommand → Slot → Call
  | .set_active_boot_slot => Call.setActiveBootSlot
  | .set_slot_as_unbootable => Call.setSlotAsUnbootable
  | .is_slot_bootable => Call.isSlotBootable
  | .is_slot_marked_successful => Call.isSlotMarkedSuccessful
  | .get_suffix => Call.getSuffix

/-- The `do_` function `main` runs for a command that takes a `SLOT`. -/
def SlotCommand.run : SlotCommand → BootControl → Slot → Run
  | .set_active_boot_slot => do_set_active_boot_slot
  | .set_slot_as_unbootable => do_set_slot_as_unbootable
  | .is_slot_bootable => do_is_slot_bootable
  | .is_slot_marked_successful => do_is_slot_marked_successful
  | .get_suffix => do_get_suffix

/-- The three commands that print an unsigned integer. -/
inductive NumberCommand where
  | get_number_slots
  | get_current_slot
  | get_active_boot_slot
  deriving DecidableEq, Repr

/-- Command string of a command that prints an unsigned integer. -/
def NumberCommand.name : NumberCommand → String
  | .get_number_slots => "get-number-slots"
  | .get_current_slot => "get-current-slot"
  | .get_active_boot_slot => "get-active-boot-slot"

/-- Operation of `BootControl` that matches a command that prints an
unsigned integer. -/
def NumberCommand.operation : NumberCommand → Call
  | .get_number_slots => Call.getNumberSlots
  | .get_current_slot => Call.getCurrentSlot
  | .get_active_boot_slot => Call.getActiveBootSlot

/-- Answer of the module to the operation of a command that prints an
unsigned integer. -/
def NumberCommand.answer : NumberCommand → BootControl → Return Nat
  | .get_number_slots => BootControl.getNumberSlots
  | .get_current_slot => BootControl.getCurrentSlot
  | .get_active_boot_slot => BootControl.getActiveBootSlot

/-- The nine command strings. -/
def commands : List String :=
  ["get-number-slots", "get-current-slot", "mark-boot-successful", "get-active-boot-slot",
   "set-active-boot-slot", "set-slot-as-unbootable", "is-slot-bootable",
   "is-slot-marked-successful", "get-suffix"]

/-- Value of a run of decimal digits, most significant first. -/
def decimalValue (ds : List Char) : Nat :=
  ds.foldl (fun acc c => acc * 10 + (c.toNat - 48)) 0

/-- A module of two slots `_a` and `_b`, running from slot 0 with slot 1
active, in which every call is ok. It is the concrete module of the
examples. -/
def sampleModule : BootControl :=
  { getNumberSlots := Return.ok 2
    getCurrentSlot := Return.ok 0
    markBootSuccessful := (Return.ok (), { success := true, errMsg := "" })
    setActiveBootSlot := fun slot =>
      (Return.ok (), if slot < 2 then { success := true, errMsg := "" }
        else { success := false, errMsg := "Invalid slot" })
    setSlotAsUnbootable := fun slot =>
      (Return.ok (), if slot < 2 then { success := true, errMsg := "" }
        else { success := false, errMsg := "Invalid slot" })
    isSlotBootable := fun slot =>
      Return.ok (if slot < 2 then BoolResult.TRUE else BoolResult.INVALID_SLOT)
    isSlotMarkedSuccessful := fun slot =>
      Return.ok (if slot = 0 then BoolResult.TRUE
        else if slot = 1 then BoolResult.FALSE else BoolResult.INVALID_SLOT)
    getSuffix := fun slot =>
      (Return.ok (), [if slot = 0 then "_a" else if slot = 1 then "_b" else ""])
    getActiveBootSlot := Return.ok 1 }

/-- A module whose `getSuffix` delivers a suffix that holds a NUL character. -/
def nulSuffixModule : BootControl :=
  { sampleModule with getSuffix := fun _ => (Return.ok (), ["_a\x00zz"]) }

/-- A module whose `getSuffix` fails in transport without invoking the
callback. -/
def deadModule : BootControl :=
  { sampleModule with
    getSuffix := fun _ =>
      ({ isOk := false, description := "Status(EX_TRANSACTION_FAILED)", val := () }, []) }

/-! ## The boot-control provider

`BootControl.h` declares the operations and `bootctl.cpp` calls them; the
file that implements them is not among the sources. -/

namespace Provider

/-- Modelled from the spec: the implementation of `BootControl` is missing.
Section 3, `SlotMetadata`, one per slot. -/
structure SlotMetadata where
  bootable : Bool
  successful : Bool
  retriesLeft : Nat
  priority : Nat
  deriving DecidableEq, Repr

/-- Modelled from the spec: the implementation of `BootControl` is missing.
The constants the state machine is provisioned with: `NUM_SLOTS` and
`MAX_RETRIES` of sections 3 and 4.2. -/
structure Config where
  NUM_SLOTS : Nat
  MAX_RETRIES : Nat
  deriving DecidableEq, Repr

/-- Modelled from the spec: the implementation of `BootControl` is missing.
Section 3, `BootControlState`: the metadata of every slot and the slot the
system runs from. The active slot of section 3 is not stored: it is what
`getActiveBootSlot` computes. Only the entries of slots below `NUM_SLOTS`
are ever read. -/
structure BootControlState where
  slots : Slot → SlotMetadata
  currentSlot : Slot

/-- Modelled from the spec: the implementation of `BootControl` is missing.
Section 7, the error taxonomy. -/
inductive BootError where
  | InvalidSlot
  | NoBootableSlot
  | StorageCorrupt
  | IOFailure
  deriving DecidableEq, Repr

/-- Modelled from the spec: the implementation of `BootControl` is missing.
Section 3: the slot with the highest priority among the bootable slots below
`n`, ties broken by lowest slot index; none when no slot below `n` is
bootable. -/
def highestBootable (slots : Slot → SlotMetadata) : Nat → Option Slot
  | 0 => none
  | n + 1 =>
    match highestBootable slots n with
    | none => if (slots n).bootable then some n else none
    | some best =>
      if (slots n).bootable ∧ (slots n).priority > (slots best).priority then some n
      else some best

/-- Modelled from the spec: the implementation of `BootControl` is missing.
Section 4.2, `getActiveBootSlot`: the slot with the highest priority among
bootable slots; fails with `NoBootableSlot` if none are bootable. -/
def getActiveBootSlot (cfg : Config) (st : BootControlState) : Except BootError Slot :=
  match highestBootable st.slots cfg.NUM_SLOTS with
  | none => .error .NoBootableSlot
  | some slot => .ok slot

/-- Modelled from the spec: the implementation of `BootControl` is missing.
Section 3, the order in which slots are chosen: slot `i` comes before slot
`j` when its priority is higher, or equal with a lower slot index. -/
def precedes (slots : Slot → SlotMetadata) (i j : Slot) : Bool :=
  decide ((slots j).priority < (slots i).priority) ||
    ((slots i).priority == (slots j).priority && decide (i < j))

/-- Modelled from the spec: the implementation of `BootControl` is missing.
Section 4.2, the other slots demoted by one rank: whether every slot below `n`
other than `slot` has a rank to lose, that is, a priority above 0. -/
def othersCanDemote (slots : Slot → SlotMetadata) (slot : Slot) : Nat → Bool
  | 0 => true
  | n + 1 => othersCanDemote slots slot n && (n == slot || decide (0 < (slots n).priority))

/-- Modelled from the spec: the implementation of `BootControl` is missing.
Section 4.2, `demotes other slots' priority by one rank, preserving relative
order`: the priority of another slot `i` after `setActiveBootSlot(slot)`, one
less than before. Where some other slot is already at priority 0, lowering
the rest would merge two ranks and change their relative order; the other
slots then keep their priority and the distance of one rank comes from the
priority given to `slot`. -/
def demotedPriority (cfg : Config) (st : BootControlState) (slot i : Slot) : Nat :=
  if othersCanDemote st.slots slot cfg.NUM_SLOTS then (st.slots i).priority - 1
  else (st.slots i).priority

/-- Modelled from the spec: the implementation of `BootControl` is missing.
Section 4.2, `priority = highest`: the greatest of the priorities `prio` of
the slots below `n` other than `slot`. -/
def highestOther (prio : Slot → Nat) (slot : Slot) : Nat → Nat
  | 0 => 0
  | n + 1 => if n = slot then highestOther prio slot n else max (highestOther prio slot n) (prio n)

/-- Modelled from the spec: the implementation of `BootControl` is missing.
Section 4.2, `setActiveBootSlot`: validates that the slot is in range (fails
`InvalidSlot` otherwise); sets `bootable = true`, `successful = false`,
`retriesLeft = MAX_RETRIES`, `priority = highest` for it, one rank above the
greatest priority of the demoted other slots, and demotes the priority of
every other slot by one rank, preserving relative order. The new state is the
result only when the commit to the store succeeded (`commitOk`); a failed
commit discards it and surfaces `IOFailure`. -/
def setActiveBootSlot (cfg : Config) (st : BootControlState) (slot : Slot) (commitOk : Bool) :
    Except BootError BootControlState :=
  if slot < cfg.NUM_SLOTS then
    if commitOk then
      .ok { st with
        slots := fun i =>
          if i = slot then
            { bootable := true, successful := false, retriesLeft := cfg.MAX_RETRIES,
              priority := highestOther (demotedPriority cfg st slot) slot cfg.NUM_SLOTS + 1 }
          else { st.slots i with priority := demotedPriority cfg st slot i } }
    else .error .IOFailure
  else .error .InvalidSlot

/-- Modelled from the spec: the implementation of `BootControl` is missing.
Section 4.2, `isSlotBootable`: a ternary result that never raises; a slot out
of range yields `INVALID_SLOT` as a value. -/
def isSlotBootable (cfg : Config) (st : BootControlState) (slot : Slot) : BoolResult :=
  if slot < cfg.NUM_SLOTS then
    if (st.slots slot).bootable then .TRUE else .FALSE
  else .INVALID_SLOT

/-- Modelled from the spec: the implementation of `BootControl` is missing.
Section 4.2, `isSlotMarkedSuccessful`: the same ternary pattern. -/
def isSlotMarkedSuccessful (cfg : Config) (st : BootControlState) (slot : Slot) : BoolResult :=
  if slot < cfg.NUM_SLOTS then
    if (st.slots slot).successful then .TRUE else .FALSE
  else .INVALID_SLOT

/-- Modelled from the spec: the implementation of `BootControl` is missing.
The scenario of section 8 before the call: two slots, slot 0 active and
successful, slot 1 freshly flashed with 7 retries left. -/
def scenarioState : BootControlState :=
  { slots := fun i =>
      if i = 0 then { bootable := true, successful := true, retriesLeft := 7, priority := 15 }
      else { bootable := true, successful := false, retriesLeft := 7, priority := 14 }
    currentSlot := 0 }

/-- Modelled from the spec: the implementation of `BootControl` is missing.
Constants of the scenario of section 8: two slots, 7 retries. -/
def scenarioConfig : Config :=
  { NUM_SLOTS := 2, MAX_RETRIES := 7 }

/-- Modelled from the spec: the implementation of `BootControl` is missing.
The scenario of section 8 after `setActiveBootSlot(1)`: slot 1 reset and at
the highest priority, every other slot demoted by one rank. -/
def scenarioAfter : BootControlState :=
  { scenarioState with
    slots := fun i =>
      if i = 1 then { bootable := true, successful := false, retriesLeft := 7, priority := 15 }
      else { scenarioState.slots i with priority := (scenarioState.slots i).priority - 1 } }

/-- Modelled from the spec: the implementation of `BootControl` is missing.
A state of two bootable slots whose priorities are far apart, slot 0 the
higher. -/
def unevenState : BootControlState :=
  { slots := fun i =>
      if i = 0 then { bootable := true, successful := true, retriesLeft := 7, priority := 20 }
      else { bootable := true, successful := false, retriesLeft := 7, priority := 3 }
    currentSlot := 0 }

/-- Modelled from the spec: the implementation of `BootControl` is missing.
The state `unevenState` after `setActiveBootSlot(1)`: slot 0 demoted to 19,
slot 1 one rank above it. -/
def unevenAfter : BootControlState :=
  { unevenState with
    slots := fun i =>
      if i = 1 then { bootable := true, successful := false, retriesLeft := 7, priority := 20 }
      else { unevenState.slots i with priority := (unevenState.slots i).priority - 1 } }

end Provider

end Bootctl

/-! ## Exit status of the commands that change or query a slot -/

namespace Bootctl

/-- Claim C1. Whatever the transport status and the `BoolResult`, the exit
status `handle_return` computes for `is-slot-bootable` and
`is-slot-marked-successful` is `EX_OK` (0) exactly when the call is ok and the
result is `TRUE`, and `EX_SOFTWARE` (70) in every other case. -/
theorem handle_return_bool_exit_status (ret : Return BoolResult) (errStr : String)
    (module : BootControl) (slot : Slot) :
    ((handle_return_bool ret errStr).2 = 0 ↔ (ret.isOk = true ∧ ret.val = BoolResult.TRUE)) ∧
    (handle_return_bool ret errStr).2
      = (if ret.isOk = true ∧ ret.val = BoolResult.TRUE then 0 else 70) ∧
    (do_is_slot_bootable module slot).status
      = .exited (if (module.isSlotBootable slot).isOk = true
          ∧ (module.isSlotBootable slot).val = BoolResult.TRUE then 0 else 70) ∧
    (do_is_slot_marked_successful module slot).status
      = .exited (if (module.isSlotMarkedSuccessful slot).isOk = true
          ∧ (module.isSlotMarkedSuccessful slot).val = BoolResult.TRUE then 0 else 70) := by
  have key : ∀ (r : Return BoolResult) (e : String), (handle_return_bool r e).2
      = (if r.isOk = true ∧ r.val = BoolResult.TRUE then 0 else 70) := by
    intro r e
    unfold handle_return_bool
    cases hok : r.isOk <;> cases hv : r.val <;> simp [EX_OK, EX_SOFTWARE]
  refine ⟨?_, key ret errStr, ?_, ?_⟩
  · rw [key]
    split <;> simp_all
  · simp only [do_is_slot_bootable, key]
  · simp only [do_is_slot_marked_successful, key]

/-- Claim C2. Whatever the transport status and the `CommandResult` the
callback delivered, the exit status `handle_return` computes for
`mark-boot-successful`, `set-active-boot-slot` and `set-slot-as-unbootable`
is `EX_OK` (0) exactly when the call is ok and `success` is true, and
`EX_SOFTWARE` (70) otherwise. -/
theorem handle_return_exit_status (ret : Return Unit) (cr : CommandResult) (errStr : String)
    (module : BootControl) (slot : Slot) :
    ((handle_return ret cr errStr).2 = 0 ↔ (ret.isOk = true ∧ cr.success = true)) ∧
    (handle_return ret cr errStr).2 = (if ret.isOk = true ∧ cr.success = true then 0 else 70) ∧
    (do_mark_boot_successful module).status
      = .exited (if module.markBootSuccessful.1.isOk = true
          ∧ module.markBootSuccessful.2.success = true then 0 else 70) ∧
    (do_set_active_boot_slot module slot).status
      = .exited (if (module.setActiveBootSlot slot).1.isOk = true
          ∧ (module.setActiveBootSlot slot).2.success = true then 0 else 70) ∧
    (do_set_slot_as_unbootable module slot).status
      = .exited (if (module.setSlotAsUnbootable slot).1.isOk = true
          ∧ (module.setSlotAsUnbootable slot).2.success = true then 0 else 70) := by
  have key : ∀ (r : Return Unit) (c : CommandResult) (e : String), (handle_return r c e).2
      = (if r.isOk = true ∧ c.success = true then 0 else 70) := by
    intro r c e
    unfold handle_return
    cases hok : r.isOk <;> cases hs : c.success <;> simp [EX_OK, EX_SOFTWARE]
  refine ⟨?_, key ret cr errStr, ?_, ?_, ?_⟩
  · rw [key]
    split <;> simp_all
  · simp only [do_mark_boot_successful, key]
  · simp only [do_set_active_boot_slot, key]
  · simp only [do_set_slot_as_unbootable, key]

/-! ## The `SLOT` argument -/

/-- Claim C3, evaluated on the code. A `SLOT` that is not a number is not
rejected: with `abc` or the empty string every command that takes a `SLOT`
invokes its operation on slot 0, and with `1x` on slot 1. With `-1` the
operation is invoked on slot 4294967295 where `unsigned long` has 32 bits,
and usage is printed where it has 64. -/
theorem main_malformed_slot_invokes_operation (ulong_bits : Nat) (module : BootControl)
    (command : SlotCommand) :
    (main ulong_bits module ["bootctl", command.name, "abc"]).calls = [command.operation 0] ∧
    (main ulong_bits module ["bootctl", command.name, ""]).calls = [command.operation 0] ∧
    (main 64 module ["bootctl", command.name, "1x"]).calls = [command.operation 1] ∧
    (main 32 module ["bootctl", command.name, "-1"]).calls = [command.operation 4294967295] ∧
    main 64 module ["bootctl", command.name, "-1"] = usage_exit ["bootctl", command.name, "-1"] ∧
    main 64 sampleModule ["bootctl", "set-active-boot-slot", "abc"]
      = { out := "", err := "", calls := [Call.setActiveBootSlot 0], status := .exited 0 } := by
  refine ⟨?_, ?_, ?_, ?_, ?_, by decide⟩ <;> cases command <;> rfl

/-- Claim C4. With the `SLOT` argument missing (`argc == 2`) every command
that takes a `SLOT` prints usage to stderr, writes nothing to stdout, exits
with `EX_USAGE` (64) and invokes no operation. -/
theorem main_missing_slot_usage (ulong_bits : Nat) (module : BootControl) (prog : String)
    (command : SlotCommand) :
    main ulong_bits module [prog, command.name]
      = { out := "", err := usage [prog, command.name], calls := [], status := .exited 64 } := by
  cases command <;> rfl

/-- The character of a decimal digit is a digit, and its value is the digit. -/
theorem digitChar_isdigit (m : Nat) (hm : m < 10) :
    isdigit (Nat.digitChar m) = true ∧ (Nat.digitChar m).toNat - 48 = m := by
  interval_cases m <;> decide

/-- Reading digits into an accumulator shifts the accumulator left. -/
theorem foldl_digit_shift (l : List Char) : ∀ a : Nat,
    l.foldl (fun acc c => acc * 10 + (c.toNat - 48)) a = a * 10 ^ l.length + decimalValue l := by
  induction l with
  | nil => intro a; simp [decimalValue]
  | cons c s ih =>
    intro a
    simp only [decimalValue, List.foldl_cons, List.length_cons] at ih ⊢
    rw [ih (a * 10 + (c.toNat - 48)), ih (0 * 10 + (c.toNat - 48))]
    ring

/-- What `Nat.toDigitsCore` puts in front of its accumulator reads as `n`. -/
theorem decimalValue_toDigitsCore (fuel : Nat) (n : Nat) (acc : List Char) (hfuel : n < fuel) :
    decimalValue (Nat.toDigitsCore 10 fuel n acc) = n * 10 ^ acc.length + decimalValue acc := by
  induction fuel generalizing n acc with
  | zero => omega
  | succ fuel ih =>
    obtain ⟨_, hv⟩ := digitChar_isdigit (n % 10) (Nat.mod_lt _ (by decide))
    have hhead : decimalValue (Nat.digitChar (n % 10) :: acc)
        = n % 10 * 10 ^ acc.length + decimalValue acc := by
      have := foldl_digit_shift acc (0 * 10 + ((Nat.digitChar (n % 10)).toNat - 48))
      simp only [decimalValue, List.foldl_cons] at this ⊢
      rw [this, hv]
      ring
    unfold Nat.toDigitsCore
    by_cases hq : n / 10 = 0
    · rw [if_pos hq, hhead]
      have : n % 10 = n := by omega
      rw [this]
    · rw [if_neg hq, ih (n / 10) _ (by omega), hhead, List.length_cons]
      have hn : n = n / 10 * 10 + n % 10 := by omega
      generalize n / 10 = q at *
      generalize n % 10 = r at *
      subst hn
      ring

/-- `Nat.toDigitsCore` only adds digits, at least one with fuel left. -/
theorem isdigit_toDigitsCore (fuel : Nat) (n : Nat) (acc : List Char)
    (hacc : ∀ c ∈ acc, isdigit c = true) :
    (∀ c ∈ Nat.toDigitsCore 10 fuel n acc, isdigit c = true) ∧
      (0 < fuel ∨ acc ≠ [] → Nat.toDigitsCore 10 fuel n acc ≠ []) := by
  induction fuel generalizing n acc with
  | zero =>
    refine ⟨by simpa [Nat.toDigitsCore] using hacc, ?_⟩
    intro h
    rcases h with h | h
    · omega
    · simpa [Nat.toDigitsCore] using h
  | succ fuel ih =>
    obtain ⟨hd, _⟩ := digitChar_isdigit (n % 10) (Nat.mod_lt _ (by decide))
    have hcons : ∀ c ∈ Nat.digitChar (n % 10) :: acc, isdigit c = true := by
      intro c hc
      rcases List.mem_cons.mp hc with h | h
      · rw [h]; exact hd
      · exact hacc c h
    unfold Nat.toDigitsCore
    by_cases hq : n / 10 = 0
    · simp only [hq, if_true]
      exact ⟨hcons, fun _ => by simp⟩
    · simp only [hq, if_false]
      have := ih (n / 10) (Nat.digitChar (n % 10) :: acc) hcons
      exact ⟨this.1, fun _ => this.2 (Or.inr (by simp))⟩

/-- The text of `Nat.repr n` is a non-empty run of digits that reads as `n`. -/
theorem repr_decimal (n : Nat) :
    (Nat.repr n).data ≠ [] ∧ (∀ c ∈ (Nat.repr n).data, isdigit c = true) ∧
      decimalValue (Nat.repr n).data = n := by
  have hdata : (Nat.repr n).data = Nat.toDigitsCore 10 (n + 1) n [] := by
    simp [Nat.repr, Nat.toDigits, List.asString]
  have hdig := isdigit_toDigitsCore (n + 1) n [] (by simp)
  have hval := decimalValue_toDigitsCore (n + 1) n [] (Nat.lt_succ_self n)
  rw [hdata]
  refine ⟨hdig.2 (Or.inl (Nat.succ_pos n)), hdig.1, ?_⟩
  rw [hval]
  simp [decimalValue]

/-- Reading more digits never lowers the accumulator. -/
theorem foldl_digit_le (ds : List Char) : ∀ acc : Nat,
    acc ≤ ds.foldl (fun a c => a * 10 + (c.toNat - 48)) acc := by
  induction ds with
  | nil => intro acc; exact le_refl _
  | cons c s ih =>
    intro acc
    simp only [List.foldl_cons]
    have := ih (acc * 10 + (c.toNat - 48))
    omega

/-- On a run of digits whose value fits, the loop of `strtoul` computes the
value and does not report overflow. -/
theorem strtoul_loop_digits (ulong_max : Nat) (ds : List Char) :
    ∀ (acc : Nat) (any : Bool), (∀ c ∈ ds, isdigit c = true) →
      ds.foldl (fun a c => a * 10 + (c.toNat - 48)) acc ≤ ulong_max →
      (strtoul_loop ulong_max ds acc any false).1
          = ds.foldl (fun a c => a * 10 + (c.toNat - 48)) acc ∧
        (strtoul_loop ulong_max ds acc any false).2.2 = false := by
  induction ds with
  | nil => intro acc any _ _; simp [strtoul_loop]
  | cons c s ih =>
    intro acc any hall hle
    have hc : isdigit c = true := hall c (List.mem_cons_self c s)
    have hs : ∀ x ∈ s, isdigit x = true := fun x hx => hall x (List.mem_cons_of_mem c hx)
    simp only [List.foldl_cons] at hle ⊢
    have hmono := foldl_digit_le s (acc * 10 + (c.toNat - 48))
    have hfit : ¬ (acc > ulong_max / 10 ∨
        (acc = ulong_max / 10 ∧ c.toNat - 48 > ulong_max % 10)) := by
      omega
    unfold strtoul_loop
    simp only [hc, if_true, Bool.false_eq_true, if_false, hfit]
    exact ih (acc * 10 + (c.toNat - 48)) true hs hle

/-- Leading zeros do not change the value. -/
theorem decimalValue_zeros (zeros : Nat) (ds : List Char) :
    decimalValue (List.replicate zeros '0' ++ ds) = decimalValue ds := by
  induction zeros with
  | zero => simp
  | succ k ih =>
    simp only [decimalValue, List.replicate_succ, List.cons_append, List.foldl_cons] at ih ⊢
    exact ih

/-- On a non-empty run of digits of value at most `UINT_MAX`, `strtoul`
returns the value and leaves `errno` at 0. -/
theorem strtoul_digits (ulong_bits : Nat) (h32 : 32 ≤ ulong_bits) (ds : List Char)
    (hne : ds ≠ []) (hall : ∀ c ∈ ds, isdigit c = true) (hle : decimalValue ds ≤ UINT_MAX) :
    strtoul ulong_bits (String.mk ds) = (decimalValue ds, 0) := by
  have hmax : UINT_MAX ≤ 2 ^ ulong_bits - 1 := by
    have : 2 ^ 32 ≤ 2 ^ ulong_bits := Nat.pow_le_pow_right (by decide) h32
    simp only [UINT_MAX]
    omega
  cases ds with
  | nil => exact absurd rfl hne
  | cons c s =>
    have hc : isdigit c = true := hall c (List.mem_cons_self c s)
    have hrange : 48 ≤ c.toNat ∧ c.toNat ≤ 57 := by
      simpa [isdigit] using hc
    have hsp : isspace c = false := by
      simp [isspace]; omega
    have hminus : c ≠ '-' := by
      intro h; rw [h] at hrange; revert hrange; decide
    have hplus : c ≠ '+' := by
      intro h; rw [h] at hrange; revert hrange; decide
    have hloop := strtoul_loop_digits (2 ^ ulong_bits - 1) (c :: s) 0 false hall
      (le_trans hle hmax)
    unfold strtoul
    simp only [List.dropWhile_cons, hsp, Bool.false_eq_true, if_false, strtoul_sign, hminus,
      hplus]
    rw [hloop.2]
    simp only [Bool.false_eq_true, if_false, Bool.false_and]
    rw [hloop.1]
    rfl

/-- With such a run as `argv[2]`, `parse_slot` returns its value. -/
theorem parse_slot_digits (ulong_bits : Nat) (h32 : 32 ≤ ulong_bits) (ds : List Char)
    (hne : ds ≠ []) (hall : ∀ c ∈ ds, isdigit c = true) (hle : decimalValue ds ≤ UINT_MAX)
    (prog command : String) (rest : List String) :
    parse_slot ulong_bits 2 (prog :: command :: String.mk ds :: rest)
      = .ok (decimalValue ds) := by
  have hstr := strtoul_digits ulong_bits h32 ds hne hall hle
  simp only [UINT_MAX] at hle
  have h64 : decimalValue ds % 2 ^ 64 = decimalValue ds := Nat.mod_eq_of_lt (by omega)
  have h32m : decimalValue ds % 2 ^ 32 = decimalValue ds := Nat.mod_eq_of_lt (by omega)
  unfold parse_slot
  rw [if_neg (by simp; omega)]
  simp only [List.getD_cons_succ, List.getD_cons_zero, hstr, h64, h32m, UINT_MAX]
  rw [if_neg (by omega)]

/-- Claim C5. For every command that takes a `SLOT` and every `n` from 0 to
4294967295 written in base 10, with any number of leading zeros, the program
behaves as the `do_` function of the command on slot `n`: it invokes the
matching operation once with slot `n` and invokes nothing else. This holds
for every width of `unsigned long` of at least 32 bits. -/
theorem main_slot_command_invokes_operation (ulong_bits : Nat) (module : BootControl)
    (command : SlotCommand) (prog : String) (rest : List String) (zeros n : Nat)
    (h32 : 32 ≤ ulong_bits) (hn : n ≤ 4294967295) :
    main ulong_bits module
        (prog :: command.name :: String.mk (List.replicate zeros '0' ++ (Nat.repr n).data) :: rest)
      = command.run module n ∧
    (command.run module n).calls = [command.operation n] := by
  obtain ⟨hne, hall, hval⟩ := repr_decimal n
  have hparse := parse_slot_digits ulong_bits h32
    (List.replicate zeros '0' ++ (Nat.repr n).data)
    (by simp [hne])
    (by
      intro c hc
      rcases List.mem_append.mp hc with h | h
      · rw [(List.mem_replicate.mp h).2]; decide
      · exact hall c h)
    (by rw [decimalValue_zeros, hval]; exact hn)
  rw [decimalValue_zeros, hval] at hparse
  constructor
  · cases command <;>
      simp [main, SlotCommand.name, SlotCommand.run, hparse, with_slot] <;>
      intro hlen <;> omega
  · cases command <;> rfl

/-- C5 at `bootctl set-active-boot-slot 004294967295` on 64 bits. -/
theorem main_slot_command_invokes_operation_witness :
    32 ≤ 64 ∧ 4294967295 ≤ 4294967295 ∧
    main 64 sampleModule ["bootctl", "set-active-boot-slot", "004294967295"]
      = do_set_active_boot_slot sampleModule 4294967295 ∧
    (do_set_active_boot_slot sampleModule 4294967295).calls
      = [Call.setActiveBootSlot 4294967295] :=
  ⟨by decide, by decide,
    main_slot_command_invokes_operation 64 sampleModule SlotCommand.set_active_boot_slot
      "bootctl" [] 2 4294967295 (by decide) (by decide)⟩

/-! ## Dispatch -/

/-- Claim C6. When the command is absent (`argc < 2`) or `argv[1]` is not
equal to one of the nine command strings, `main` prints usage to stderr,
writes nothing to stdout, returns `EX_USAGE` (64) and invokes no operation. -/
theorem main_unknown_command_usage (ulong_bits : Nat) (module : BootControl)
    (argv : List String) (h : argv.length < 2 ∨ argv.getD 1 "" ∉ commands) :
    main ulong_bits module argv
      = { out := "", err := usage argv, calls := [], status := .exited 64 } := by
  unfold main
  split
  · rfl
  · rename_i hlen
    rcases h with h | h
    · omega
    · simp only [commands, List.mem_cons, List.mem_singleton, not_or, List.not_mem_nil,
        or_false] at h
      obtain ⟨h1, h2, h3, h4, h5, h6, h7, h8, h9⟩ := h
      simp only [h1, h2, h3, h4, h5, h6, h7, h8, h9, if_false]
      rfl

/-- C6 at the case variant `bootctl Get-Number-Slots`. -/
theorem main_unknown_command_usage_witness :
    (["bootctl", "Get-Number-Slots"].length < 2
      ∨ ["bootctl", "Get-Number-Slots"].getD 1 "" ∉ commands) ∧
    main 64 sampleModule ["bootctl", "Get-Number-Slots"]
      = { out := "", err := usage ["bootctl", "Get-Number-Slots"], calls := [],
          status := .exited 64 } :=
  ⟨by decide, main_unknown_command_usage 64 sampleModule ["bootctl", "Get-Number-Slots"]
    (by decide)⟩

/-! ## Text output -/

/-- Claim C7. When `getNumberSlots`, `getCurrentSlot` or `getActiveBootSlot`
returns the 32-bit unsigned value `v`, the command writes to stdout the
base-10 digits of `v` followed by one newline and nothing else, writes
nothing to stderr, invokes that operation only, and returns `EX_OK` (0). -/
theorem main_number_command_output (ulong_bits : Nat) (module : BootControl)
    (command : NumberCommand) (prog : String) (rest : List String) (v : Nat)
    (hok : (command.answer module).isOk = true) (hval : (command.answer module).val = v)
    (hv : v < 2 ^ 32) :
    main ulong_bits module (prog :: command.name :: rest)
      = { out := Nat.repr v ++ "\n", err := "", calls := [command.operation],
          status := .exited 0 } ∧
    (∀ c ∈ (Nat.repr v).data, isdigit c = true) ∧ decimalValue (Nat.repr v).data = v := by
  refine ⟨?_, (repr_decimal v).2⟩
  have hmod : v % 4294967296 = v := Nat.mod_eq_of_lt (by omega)
  cases command <;>
    simp only [NumberCommand.answer] at hok hval <;>
    simp [main, NumberCommand.name, NumberCommand.operation, do_get_number_slots,
      do_get_current_slot, do_get_active_boot_slot, Return.get, hok, hval, fmt_u, hmod, EX_OK] <;>
    intro hlen <;> omega

/-- C7 at `bootctl get-number-slots` on a module of two slots. -/
theorem main_number_command_output_witness :
    (NumberCommand.get_number_slots.answer sampleModule).isOk = true ∧
    (NumberCommand.get_number_slots.answer sampleModule).val = 2 ∧ 2 < 2 ^ 32 ∧
    main 64 sampleModule ["bootctl", "get-number-slots"]
      = { out := "2\n", err := "", calls := [Call.getNumberSlots], status := .exited 0 } :=
  ⟨rfl, rfl, by decide,
    (main_number_command_output 64 sampleModule NumberCommand.get_number_slots "bootctl" [] 2
      rfl rfl (by decide)).1⟩

/-- A string that holds no NUL is printed whole. -/
theorem c_str_of_no_nul (s : String) (h : ∀ c ∈ s.data, c.toNat ≠ 0) : c_str s = s := by
  have key : ∀ l : List Char, (∀ c ∈ l, c.toNat ≠ 0) →
      l.takeWhile (fun c => c.toNat != 0) = l := by
    intro l hl
    induction l with
    | nil => rfl
    | cons c t ih =>
      have hc : (c.toNat != 0) = true := by simpa using hl c (List.mem_cons_self c t)
      rw [List.takeWhile_cons, hc]
      simp only [if_true]
      rw [ih (fun x hx => hl x (List.mem_cons_of_mem c hx))]
  unfold c_str
  rw [key s.data h]

/-- Claim C10 as stated fails: for the suffix `_a`, NUL, `zz` the callback
prints `suffix.c_str()`, so stdout holds `_a` and a newline, not the whole
suffix and a newline. -/
theorem do_get_suffix_nul_counterexample :
    nulSuffixModule.getSuffix 0 = (Return.ok (), ["_a\x00zz"]) ∧
    (do_get_suffix nulSuffixModule 0).out = "_a\n" ∧
    (do_get_suffix nulSuffixModule 0).out ≠ "_a\x00zz" ++ "\n" :=
  ⟨rfl, by decide, by decide⟩

/-- Claim C10, amended. For every module and slot `do_get_suffix` invokes
`getSuffix` only, returns `EX_OK` (0) when the call is ok and `EX_SOFTWARE`
(70) exactly when the call failed, whether or not the callback ran and
whatever it delivered. When the callback delivers one suffix, stdout is the
characters of the suffix before its first NUL followed by one newline: the
whole suffix, the empty one included, when it holds no NUL. When the callback
does not run, stdout stays empty. -/
theorem do_get_suffix_output_and_status (module : BootControl) (slot : Slot) :
    (do_get_suffix module slot).status
      = .exited (if (module.getSuffix slot).1.isOk = true then 0 else 70) ∧
    ((do_get_suffix module slot).status = .exited 70
      ↔ (module.getSuffix slot).1.isOk = false) ∧
    (do_get_suffix module slot).calls = [Call.getSuffix slot] ∧
    (∀ suffix, (module.getSuffix slot).2 = [suffix] →
      (do_get_suffix module slot).out = c_str suffix ++ "\n" ∧
      ((∀ c ∈ suffix.data, c.toNat ≠ 0) →
        (do_get_suffix module slot).out = suffix ++ "\n")) ∧
    ((module.getSuffix slot).2 = [] → (do_get_suffix module slot).out = "") := by
  refine ⟨?_, ?_, rfl, ?_, ?_⟩
  · cases hok : (module.getSuffix slot).1.isOk <;> simp [do_get_suffix, hok, EX_OK, EX_SOFTWARE]
  · cases hok : (module.getSuffix slot).1.isOk <;> simp [do_get_suffix, hok, EX_OK, EX_SOFTWARE]
  · intro suffix hdel
    have hout : (do_get_suffix module slot).out = c_str suffix ++ "\n" := by
      simp [do_get_suffix, hdel, String.join]
    refine ⟨hout, fun hnul => ?_⟩
    rw [hout, c_str_of_no_nul suffix hnul]
  · intro hdel
    simp [do_get_suffix, hdel, String.join]

/-- C10 at slot 0 of a module of two slots, whose suffix is `_a`, and at a
module whose call fails before the callback runs. -/
theorem do_get_suffix_output_and_status_witness :
    sampleModule.getSuffix 0 = (Return.ok (), ["_a"]) ∧
    (do_get_suffix sampleModule 0).out = "_a" ++ "\n" ∧
    (do_get_suffix sampleModule 0).status = .exited 0 ∧
    (do_get_suffix deadModule 0).status = .exited 70 ∧
    (do_get_suffix deadModule 0).out = "" :=
  ⟨rfl,
    ((do_get_suffix_output_and_status sampleModule 0).2.2.2.1 "_a" rfl).2 (by decide),
    (do_get_suffix_output_and_status sampleModule 0).1,
    (do_get_suffix_output_and_status deadModule 0).2.1.mpr rfl,
    (do_get_suffix_output_and_status deadModule 0).2.2.2.2 rfl⟩

/-! ## The boot-control provider -/

namespace Provider

/-- What `highestBootable` selects: no slot when none is bootable, else a
bootable slot whose priority no bootable slot exceeds. -/
theorem highestBootable_spec (slots : Slot → SlotMetadata) (n : Nat) :
    match highestBootable slots n with
    | none => ∀ i, i < n → (slots i).bootable = false
    | some j => j < n ∧ (slots j).bootable = true ∧
        ∀ i, i < n → (slots i).bootable = true → (slots i).priority ≤ (slots j).priority := by
  induction n with
  | zero => simp [highestBootable]
  | succ n ih =>
    unfold highestBootable
    cases hprev : highestBootable slots n with
    | none =>
      rw [hprev] at ih
      by_cases hb : (slots n).bootable = true
      · show match (if (slots n).bootable = true then some n else none) with
          | none => _
          | some j => _
        rw [if_pos hb]
        refine ⟨Nat.lt_succ_self n, hb, ?_⟩
        intro i hi hbi
        rcases Nat.lt_succ_iff_lt_or_eq.mp hi with hlt | heq
        · have := ih i hlt
          rw [this] at hbi
          exact absurd hbi (by decide)
        · subst heq; exact le_refl _
      · show match (if (slots n).bootable = true then some n else none) with
          | none => _
          | some j => _
        rw [if_neg hb]
        intro i hi
        rcases Nat.lt_succ_iff_lt_or_eq.mp hi with hlt | heq
        · exact ih i hlt
        · subst heq; simpa using hb
    | some j =>
      rw [hprev] at ih
      obtain ⟨hj, hbj, hmax⟩ := ih
      by_cases hc : (slots n).bootable = true ∧ (slots n).priority > (slots j).priority
      · show match (if (slots n).bootable = true ∧ (slots n).priority > (slots j).priority
            then some n else some j) with
          | none => _
          | some j => _
        rw [if_pos hc]
        refine ⟨Nat.lt_succ_self n, hc.1, ?_⟩
        intro i hi hbi
        rcases Nat.lt_succ_iff_lt_or_eq.mp hi with hlt | heq
        · have h1 := hmax i hlt hbi
          have h2 := hc.2
          show (slots i).priority ≤ (slots n).priority
          omega
        · subst heq; exact le_refl _
      · show match (if (slots n).bootable = true ∧ (slots n).priority > (slots j).priority
            then some n else some j) with
          | none => _
          | some j => _
        rw [if_neg hc]
        refine ⟨Nat.lt_succ_of_lt hj, hbj, ?_⟩
        intro i hi hbi
        rcases Nat.lt_succ_iff_lt_or_eq.mp hi with hlt | heq
        · exact hmax i hlt hbi
        · subst heq
          have : ¬ (slots i).priority > (slots j).priority := fun hgt => hc ⟨hbi, hgt⟩
          show (slots i).priority ≤ (slots j).priority
          omega

/-- A bootable slot whose priority is above that of every other bootable slot
is the one selected. -/
theorem highestBootable_unique (slots : Slot → SlotMetadata) (n s : Nat) (hs : s < n)
    (hb : (slots s).bootable = true)
    (hlt : ∀ i, i < n → i ≠ s → (slots i).bootable = true →
      (slots i).priority < (slots s).priority) :
    highestBootable slots n = some s := by
  have hspec := highestBootable_spec slots n
  cases hres : highestBootable slots n with
  | none =>
    rw [hres] at hspec
    have := hspec s hs
    simp [this] at hb
  | some j =>
    rw [hres] at hspec
    obtain ⟨hj, hbj, hmax⟩ := hspec
    by_cases hjs : j = s
    · rw [hjs]
    · have h1 := hlt j hj hjs hbj
      have h2 := hmax s hs hb
      omega

/-- The slot `highestBootable` selects is the answer of `getActiveBootSlot`. -/
theorem getActiveBootSlot_of_highest (cfg : Config) (st : BootControlState) (s : Slot)
    (h : highestBootable st.slots cfg.NUM_SLOTS = some s) :
    getActiveBootSlot cfg st = .ok s := by
  simp only [getActiveBootSlot, h]

/-- No other slot below `n` has more than `highestOther`. -/
theorem le_highestOther (prio : Slot → Nat) (slot : Slot) (n i : Nat) (hi : i < n)
    (hne : i ≠ slot) : prio i ≤ highestOther prio slot n := by
  induction n with
  | zero => omega
  | succ n ih =>
    unfold highestOther
    by_cases hn : n = slot
    · rw [if_pos hn]
      exact ih (by omega)
    · rw [if_neg hn]
      rcases Nat.lt_succ_iff_lt_or_eq.mp hi with hlt | heq
      · exact le_trans (ih hlt) (le_max_left _ _)
      · rw [heq]; exact le_max_right _ _

/-- Where the other slots can be demoted, each of them is above priority 0. -/
theorem pos_of_othersCanDemote (slots : Slot → SlotMetadata) (slot : Slot) (n i : Nat)
    (h : othersCanDemote slots slot n = true) (hi : i < n) (hne : i ≠ slot) :
    0 < (slots i).priority := by
  induction n with
  | zero => omega
  | succ n ih =>
    simp only [othersCanDemote, Bool.and_eq_true, Bool.or_eq_true, beq_iff_eq,
      decide_eq_true_eq] at h
    rcases Nat.lt_succ_iff_lt_or_eq.mp hi with hlt | heq
    · exact ih h.1 hlt
    · subst heq
      rcases h.2 with h2 | h2
      · exact absurd h2 hne
      · exact h2

/-- The slots of the state after a successful `setActiveBootSlot`. -/
theorem slots_of_setActiveBootSlot (cfg : Config) (st st' : BootControlState) (s : Slot)
    (commitOk : Bool) (hset : setActiveBootSlot cfg st s commitOk = .ok st') :
    s < cfg.NUM_SLOTS ∧
    (st'.slots s).bootable = true ∧
    (st'.slots s).priority = highestOther (demotedPriority cfg st s) s cfg.NUM_SLOTS + 1 ∧
    ∀ i, i ≠ s → (st'.slots i).bootable = (st.slots i).bootable ∧
      (st'.slots i).priority = demotedPriority cfg st s i := by
  unfold setActiveBootSlot at hset
  split at hset
  · rename_i hs
    split at hset
    · simp only [Except.ok.injEq] at hset
      subst hset
      refine ⟨hs, by simp, by simp, ?_⟩
      intro i hne
      simp [hne]
    · simp at hset
  · simp at hset

/-- After a successful `setActiveBootSlot(s)` slot `s` comes before every
other slot, and the other slots keep their relative order. -/
theorem setActiveBootSlot_keeps_order (cfg : Config) (st st' : BootControlState) (s : Slot)
    (commitOk : Bool) (hset : setActiveBootSlot cfg st s commitOk = .ok st') (i j : Slot)
    (hi : i < cfg.NUM_SLOTS) (hj : j < cfg.NUM_SLOTS) (his : i ≠ s) (hjs : j ≠ s) :
    precedes st'.slots s i = true ∧ precedes st'.slots i j = precedes st.slots i j := by
  obtain ⟨_, _, hps, hothers⟩ := slots_of_setActiveBootSlot cfg st st' s commitOk hset
  have hpi := (hothers i his).2
  have hpj := (hothers j hjs).2
  have htop := le_highestOther (demotedPriority cfg st s) s cfg.NUM_SLOTS i hi his
  constructor
  · simp only [precedes, Bool.or_eq_true, decide_eq_true_eq]
    left
    omega
  · unfold precedes
    rw [hpi, hpj]
    unfold demotedPriority
    by_cases hd : othersCanDemote st.slots s cfg.NUM_SLOTS = true
    · have h1 := pos_of_othersCanDemote st.slots s cfg.NUM_SLOTS i hd hi his
      have h2 := pos_of_othersCanDemote st.slots s cfg.NUM_SLOTS j hd hj hjs
      simp only [hd, if_true]
      have e1 : decide ((st.slots j).priority - 1 < (st.slots i).priority - 1)
          = decide ((st.slots j).priority < (st.slots i).priority) := by
        apply decide_eq_decide.mpr
        omega
      have e2 : ((st.slots i).priority - 1 == (st.slots j).priority - 1)
          = ((st.slots i).priority == (st.slots j).priority) := by
        rw [Bool.eq_iff_iff]
        simp only [beq_iff_eq]
        omega
      rw [e1, e2]
    · simp only [hd, Bool.false_eq_true, if_false]

/-- Claim C8. From every boot-control state, after a successful
`setActiveBootSlot(s)` the operation `getActiveBootSlot()` returns `s` and
`isSlotBootable(s)` returns `TRUE`. A successful call is one on a slot in
range whose commit succeeded. -/
theorem setActiveBootSlot_then_active_and_bootable (cfg : Config) (st st' : BootControlState)
    (s : Slot) (commitOk : Bool)
    (hset : setActiveBootSlot cfg st s commitOk = .ok st') :
    getActiveBootSlot cfg st' = .ok s ∧ isSlotBootable cfg st' s = BoolResult.TRUE := by
  obtain ⟨hs, hboot, hps, hothers⟩ := slots_of_setActiveBootSlot cfg st st' s commitOk hset
  refine ⟨?_, ?_⟩
  · apply getActiveBootSlot_of_highest
    apply highestBootable_unique _ _ _ hs hboot
    intro i hi hne _
    have htop := le_highestOther (demotedPriority cfg st s) s cfg.NUM_SLOTS i hi hne
    rw [(hothers i hne).2, hps]
    omega
  · simp [isSlotBootable, hs, hboot]

/-- In-range calls whose commit succeeds are successful. -/
theorem setActiveBootSlot_succeeds (cfg : Config) (st : BootControlState) (s : Slot)
    (hs : s < cfg.NUM_SLOTS) : ∃ st', setActiveBootSlot cfg st s true = .ok st' := by
  unfold setActiveBootSlot
  rw [if_pos hs]
  exact ⟨_, rfl⟩

/-- C8 at the scenario of section 8, `setActiveBootSlot(1)` with slot 0
active, and at a state whose priorities are 20 and 3. -/
theorem setActiveBootSlot_then_active_and_bootable_witness :
    setActiveBootSlot scenarioConfig scenarioState 1 true = .ok scenarioAfter ∧
    (getActiveBootSlot scenarioConfig scenarioAfter = .ok 1 ∧
      isSlotBootable scenarioConfig scenarioAfter 1 = BoolResult.TRUE) ∧
    setActiveBootSlot scenarioConfig unevenState 1 true = .ok unevenAfter ∧
    (getActiveBootSlot scenarioConfig unevenAfter = .ok 1 ∧
      isSlotBootable scenarioConfig unevenAfter 1 = BoolResult.TRUE) :=
  ⟨rfl,
    setActiveBootSlot_then_active_and_bootable scenarioConfig scenarioState scenarioAfter 1 true
      rfl,
    rfl,
    setActiveBootSlot_then_active_and_bootable scenarioConfig unevenState unevenAfter 1 true
      rfl⟩

/-- Claim C9. For every slot `s` outside `[0, NUM_SLOTS)`, `isSlotBootable(s)`
and `isSlotMarkedSuccessful(s)` both return the value `INVALID_SLOT`, so that
`is-slot-bootable` and `is-slot-marked-successful`, run on a module that
answers with these values, exit with the failure status 70. -/
theorem out_of_range_query_invalid_slot (cfg : Config) (st : BootControlState) (s : Slot)
    (module : BootControl) (hs : cfg.NUM_SLOTS ≤ s)
    (hb : (module.isSlotBootable s).val = isSlotBootable cfg st s)
    (hm : (module.isSlotMarkedSuccessful s).val = isSlotMarkedSuccessful cfg st s) :
    isSlotBootable cfg st s = BoolResult.INVALID_SLOT ∧
    isSlotMarkedSuccessful cfg st s = BoolResult.INVALID_SLOT ∧
    (do_is_slot_bootable module s).status = .exited 70 ∧
    (do_is_slot_marked_successful module s).status = .exited 70 := by
  have h1 : isSlotBootable cfg st s = BoolResult.INVALID_SLOT := by
    simp [isSlotBootable, Nat.not_lt.mpr hs]
  have h2 : isSlotMarkedSuccessful cfg st s = BoolResult.INVALID_SLOT := by
    simp [isSlotMarkedSuccessful, Nat.not_lt.mpr hs]
  rw [h1] at hb
  rw [h2] at hm
  refine ⟨h1, h2, ?_, ?_⟩
  · cases hok : (module.isSlotBootable s).isOk <;>
      simp [do_is_slot_bootable, handle_return_bool, hok, hb, EX_SOFTWARE]
  · cases hok : (module.isSlotMarkedSuccessful s).isOk <;>
      simp [do_is_slot_marked_successful, handle_return_bool, hok, hm, EX_SOFTWARE]

/-- C9 at slot 5 of the two-slot scenario. -/
theorem out_of_range_query_invalid_slot_witness :
    scenarioConfig.NUM_SLOTS ≤ 5 ∧
    (sampleModule.isSlotBootable 5).val = isSlotBootable scenarioConfig scenarioState 5 ∧
    (sampleModule.isSlotMarkedSuccessful 5).val
      = isSlotMarkedSuccessful scenarioConfig scenarioState 5 ∧
    isSlotBootable scenarioConfig scenarioState 5 = BoolResult.INVALID_SLOT ∧
    isSlotMarkedSuccessful scenarioConfig scenarioState 5 = BoolResult.INVALID_SLOT ∧
    (do_is_slot_bootable sampleModule 5).status = .exited 70 ∧
    (do_is_slot_marked_successful sampleModule 5).status = .exited 70 :=
  ⟨by decide, rfl, rfl,
    out_of_range_query_invalid_slot scenarioConfig scenarioState 5 sampleModule (by decide)
      rfl rfl⟩

end Provider

end Bootctl
